import Mathlib

/-
Verification of the backup pipeline in backup.py against its design
specification.  The script walks a set of input directories, classifies
each regular file by extension, stats it, hashes it when eligible,
appends accepted files to a tar archive and records one catalog row per
file in a sqlite database, accumulating run-level counters.

The embedding below mirrors the Python-3 semantics of the source.  In
particular, the two per-file `except` handlers in do_backup (the IOError
handler for a failed os.stat and the TarError handler for a failed
tar.add) both evaluate `e.message` while formatting their diagnostic;
Python 3 exceptions have no `message` attribute, so that expression
raises AttributeError inside the handler, which is not caught anywhere
and aborts the whole run.  The embedding models any per-file path that
reaches one of those handlers as an aborted run (`none`).  The sqlite
IntegrityError handler formats only `e.args`, so that path does not
abort.  Floating-point timing accumulators of the source are not
modelled; the integer counters all are.
-/

namespace Backup

/- ### Outcome codes (class ErrorCodes, backup.py lines 129-141) -/

inductive ErrorCodes
  | SUCCESS
  | EXCL_EXT
  | IO_ERROR
  | TAR_ERROR
deriving DecidableEq, Repr, BEq

def errorCodeInt : ErrorCodes → Nat
  | .SUCCESS => 0
  | .EXCL_EXT => 1
  | .IO_ERROR => 2
  | .TAR_ERROR => 3

def errorString : ErrorCodes → String
  | .SUCCESS => "Success"
  | .EXCL_EXT => "Excluded extension"
  | .IO_ERROR => "IOError"
  | .TAR_ERROR => "TarError"

/- ### Extension extraction (backup.py line 265)

The source computes `os.path.splitext(name)[1][1:]` on a bare file name
(names yielded by os.walk contain no path separator).  The CPython
splitext takes the suffix starting at the last dot, except when every
character before that dot is itself a dot (leading-dot names such as
.bashrc, or a name with no dot at all), in which case the extension is
empty; the `[1:]` then drops the leading dot. -/

def lastDotSplit : List Char → Option (List Char × List Char)
  | [] => none
  | c :: cs =>
    match lastDotSplit cs with
    | some (pre, suf) => some (c :: pre, suf)
    | none => if c = '.' then some ([], cs) else none

def splitextExt (name : List Char) : List Char :=
  match lastDotSplit name with
  | none => []
  | some (pre, suf) => if pre.any (fun c => decide (c ≠ '.')) then suf else []

/- ### Configuration (the fields of the JSON config used by do_backup) -/

structure Config where
  excludedExts : List (List Char)
  hefms : Nat
deriving DecidableEq, Repr

/- Classification from the extension (backup.py lines 267-268). -/
def classifyExt (excludedExts : List (List Char)) (name : List Char) : ErrorCodes :=
  if splitextExt name ∈ excludedExts then .EXCL_EXT else .SUCCESS

/- ### The filesystem as seen by one run

One entry per file discovered by os.walk, in traversal order.
`statResult = none` means os.stat raises; `tarOk = false` means tar.add
raises tarfile.TarError when attempted. -/

structure FileStat where
  st_size : Nat
  st_atime : Int
  st_mtime : Int
deriving DecidableEq, Repr

structure FileInfo where
  path : String
  name : List Char
  statResult : Option FileStat
  tarOk : Bool
deriving DecidableEq, Repr

/- ### Per-file processing result (backup.py lines 260-327)

`inserted` records whether the sqlite insert of the row succeeded
(backup.py lines 329-346); processFile leaves it true and runFiles
overwrites it from the table state. -/

structure FileResult where
  path : String
  status : ErrorCodes
  fileStat : Option FileStat
  canHash : Bool
  hashCode : Option String
  archived : Bool
  inserted : Bool
deriving DecidableEq, Repr

/- One iteration of the per-file loop body up to the counter block
(backup.py lines 260-312).  Returns none when the iteration raises an
uncaught exception: a stat failure enters the IOError handler and a tar
failure enters the TarError handler, and both handlers crash on
`e.message` under Python 3, aborting the run. -/
def processFile (cfg : Config) (hashFn : String → String) (f : FileInfo) :
    Option FileResult :=
  let file_status := classifyExt cfg.excludedExts f.name
  match f.statResult with
  | none => none
  | some file_stat =>
    let can_hash_file : Bool :=
      decide (file_status = .SUCCESS) || decide (file_stat.st_size ≤ cfg.hefms)
    let hash_code : Option String :=
      if can_hash_file then some (hashFn f.path) else none
    if file_status = .SUCCESS then
      if f.tarOk then
        some { path := f.path, status := .SUCCESS, fileStat := some file_stat,
               canHash := can_hash_file, hashCode := hash_code,
               archived := true, inserted := true }
      else
        none
    else
      some { path := f.path, status := file_status, fileStat := some file_stat,
             canHash := can_hash_file, hashCode := hash_code,
             archived := false, inserted := true }

/- ### Run-level counters (backup.py lines 244-250, 348-350) -/

structure Counters where
  files_allowed : Nat
  files_allowed_bytes : Nat
  files_excluded : Nat
  files_excluded_bytes : Nat
  files_errored : Nat
  files_hashed : Nat
  sql_file_inserts : Nat
deriving DecidableEq, Repr

def initCounters : Counters :=
  { files_allowed := 0, files_allowed_bytes := 0, files_excluded := 0,
    files_excluded_bytes := 0, files_errored := 0, files_hashed := 0,
    sql_file_inserts := 0 }

/- Counter accumulation for one processed file (backup.py lines 287-318).
The hashed counter increments when the file was hashed; the allowed
counters increment in the tar-success branch, which is exactly a final
SUCCESS status; the excluded branch reads file_stat.st_size, an access
that would raise AttributeError on None (modelled as none), and the
remaining non-SUCCESS statuses increment the errored counter. -/
def stepOutcomeCounters (c : Counters) (o : FileResult) : Option Counters :=
  let c1 := if o.canHash then { c with files_hashed := c.files_hashed + 1 } else c
  let c2opt : Option Counters :=
    if o.status = .SUCCESS then
      match o.fileStat with
      | some st =>
        some { c1 with files_allowed := c1.files_allowed + 1,
                       files_allowed_bytes := c1.files_allowed_bytes + st.st_size }
      | none => none
    else some c1
  match c2opt with
  | none => none
  | some c2 =>
    if o.status = .EXCL_EXT then
      match o.fileStat with
      | some st =>
        some { c2 with files_excluded := c2.files_excluded + 1,
                       files_excluded_bytes := c2.files_excluded_bytes + st.st_size }
      | none => none
    else if o.status = .SUCCESS then some c2
    else some { c2 with files_errored := c2.files_errored + 1 }

/- ### The traversal loop (backup.py lines 257-350)

`table` is the set of paths already present in the `file` table: the
sqlite insert raises IntegrityError exactly when the unique path column
already holds the path, in which case the IntegrityError handler logs
and the loop moves on without counting the insert. -/
def runFiles (cfg : Config) (hashFn : String → String) :
    List FileInfo → List String → Counters → Option (Counters × List FileResult)
  | [], _, c => some (c, [])
  | f :: fs, table, c =>
    (processFile cfg hashFn f).bind fun o =>
      (stepOutcomeCounters c o).bind fun c1 =>
        let ok : Bool := ! table.contains f.path
        let c2 := if ok
          then { c1 with sql_file_inserts := c1.sql_file_inserts + 1 }
          else c1
        let table2 := if ok then f.path :: table else table
        (runFiles cfg hashFn fs table2 c2).map fun p =>
          (p.1, { o with inserted := ok } :: p.2)

def do_backup (cfg : Config) (hashFn : String → String)
    (files : List FileInfo) : Option (Counters × List FileResult) :=
  runFiles cfg hashFn files [] initCounters

/- ### The catalog row for a processed file (backup.py lines 320-334) -/

structure CatalogRow where
  path : String
  size : Option Nat
  date_accessed : Option Int
  date_modified : Option Int
  hash : Option String
  error_code : ErrorCodes
deriving DecidableEq, Repr

def rowOf (o : FileResult) : CatalogRow :=
  { path := o.path
    size := o.fileStat.map FileStat.st_size
    date_accessed := o.fileStat.map FileStat.st_atime
    date_modified := o.fileStat.map FileStat.st_mtime
    hash := o.hashCode
    error_code := o.status }

/- ### Counting helpers used to state the counter properties -/

def countStatus (s : ErrorCodes) (outs : List FileResult) : Nat :=
  (outs.filter (fun o => decide (o.status = s))).length

def outSize (o : FileResult) : Nat :=
  match o.fileStat with
  | some st => st.st_size
  | none => 0

def sumSizes (s : ErrorCodes) (outs : List FileResult) : Nat :=
  ((outs.filter (fun o => decide (o.status = s))).map outSize).sum

def countInserted (outs : List FileResult) : Nat :=
  (outs.filter (fun o => o.inserted)).length

def countHashed (outs : List FileResult) : Nat :=
  (outs.filter (fun o => o.canHash)).length

def outcomeMap (outs : List FileResult) : List (String × ErrorCodes) :=
  outs.map (fun o => (o.path, o.status))

/- ### Directory validation and main (backup.py lines 190-203, 353-419) -/

structure DirPerms where
  isDir : Bool
  readable : Bool
  writable : Bool
  executable : Bool
deriving DecidableEq, Repr

/- validate_dir with os.R_OK | os.X_OK (for each input directory). -/
def validRX (d : DirPerms) : Bool := d.isDir && d.readable && d.executable

/- validate_dir with os.R_OK | os.W_OK | os.X_OK (output directory). -/
def validRWX (d : DirPerms) : Bool :=
  d.isDir && d.readable && d.writable && d.executable

inductive Event
  | createTar
  | createDb
  | insertErrorCodes
  | doBackupDone
  | closeTar
  | insertMeta
  | closeDb
  | uncaughtAbort
deriving DecidableEq, Repr, BEq

structure MainOutcome where
  exitCode : Nat
  tarCreated : Bool
  dbCreated : Bool
  tarName : String
  dbName : String
  events : List Event
  result : Option (Counters × List FileResult)
deriving Repr

/- The sequence of main (backup.py lines 353-419): validate every input
directory for read+traverse and the output directory for
read+write+traverse, exiting with status 1 before creating anything on
a failure; then create the tar archive and the sqlite catalog, insert
the error_codes lookup table, run do_backup, close the tar, insert the
meta row together with the in_dir and excluded_exts snapshots, and
close the catalog.  An uncaught exception inside do_backup kills the
process after the archive and catalog files exist but before closeTar
and insertMeta. -/
def main_model (inPerms : List DirPerms) (outPerm : DirPerms)
    (startTimeStr : String) (cfg : Config) (hashFn : String → String)
    (backupName : String) (files : List FileInfo) : MainOutcome :=
  if inPerms.all validRX && validRWX outPerm then
    match do_backup cfg hashFn files with
    | some r =>
      { exitCode := 0, tarCreated := true, dbCreated := true,
        tarName := backupName ++ "-" ++ startTimeStr ++ ".tar.bz2",
        dbName := backupName ++ "-" ++ startTimeStr ++ ".sqlite3",
        events := [.createTar, .createDb, .insertErrorCodes, .doBackupDone,
                   .closeTar, .insertMeta, .closeDb],
        result := some r }
    | none =>
      { exitCode := 1, tarCreated := true, dbCreated := true,
        tarName := backupName ++ "-" ++ startTimeStr ++ ".tar.bz2",
        dbName := backupName ++ "-" ++ startTimeStr ++ ".sqlite3",
        events := [.createTar, .createDb, .insertErrorCodes, .uncaughtAbort],
        result := none }
  else
    { exitCode := 1, tarCreated := false, dbCreated := false,
      tarName := "", dbName := "", events := [], result := none }

/- Formalisation of the run-record placement property of claim C6: the
event e occurs exactly once in the trace, and only at a position
strictly after the traversal has completed. -/
def insertedOnceOnlyAfterTraversal (tr : List Event) (e : Event) : Prop :=
  tr.count e = 1 ∧
  ∀ i < tr.length, tr.get? i = some e →
    ∃ j < i, tr.get? j = some Event.doBackupDone

instance (tr : List Event) (e : Event) :
    Decidable (insertedOnceOnlyAfterTraversal tr e) := by
  unfold insertedOnceOnlyAfterTraversal
  infer_instance

/- ### Concrete inputs used by witnesses and counterexamples -/

def hash0 : String → String := fun _ => "d0"

def cfg0 : Config := { excludedExts := [['b', 'a', 'k']], hefms := 10 }

def stat0 : FileStat := { st_size := 4, st_atime := 5, st_mtime := 6 }

def fGood : FileInfo :=
  { path := "/in/a.txt", name := ['a', '.', 't', 'x', 't'],
    statResult := some stat0, tarOk := true }

def fStatFail : FileInfo :=
  { path := "/in/b.txt", name := ['b', '.', 't', 'x', 't'],
    statResult := none, tarOk := true }

def fTarFail : FileInfo :=
  { path := "/in/c.txt", name := ['c', '.', 't', 'x', 't'],
    statResult := some stat0, tarOk := false }

def statBig : FileStat := { st_size := 99, st_atime := 1, st_mtime := 2 }

def statSmall : FileStat := { st_size := 3, st_atime := 1, st_mtime := 2 }

def fExclBig : FileInfo :=
  { path := "/in/d.bak", name := ['d', '.', 'b', 'a', 'k'],
    statResult := some statBig, tarOk := true }

def fExclSmall : FileInfo :=
  { path := "/in/e.bak", name := ['e', '.', 'b', 'a', 'k'],
    statResult := some statSmall, tarOk := true }

def oExclSmall : FileResult :=
  { path := "/in/e.bak", status := .EXCL_EXT, fileStat := some statSmall,
    canHash := true, hashCode := some "d0", archived := false,
    inserted := true }

def oGood : FileResult :=
  { path := "/in/a.txt", status := .SUCCESS, fileStat := some stat0,
    canHash := true, hashCode := some "d0", archived := true,
    inserted := true }

def cAfterGood : Counters :=
  { files_allowed := 1, files_allowed_bytes := 4, files_excluded := 0,
    files_excluded_bytes := 0, files_errored := 0, files_hashed := 1,
    sql_file_inserts := 0 }

def cDup : Counters :=
  { files_allowed := 2, files_allowed_bytes := 8, files_excluded := 0,
    files_excluded_bytes := 0, files_errored := 0, files_hashed := 2,
    sql_file_inserts := 1 }

def cMix : Counters :=
  { files_allowed := 1, files_allowed_bytes := 4, files_excluded := 1,
    files_excluded_bytes := 3, files_errored := 0, files_hashed := 2,
    sql_file_inserts := 2 }

def outsMix : List FileResult := [oGood, oExclSmall]

def permRX : DirPerms :=
  { isDir := true, readable := true, writable := false, executable := true }

def permRWX : DirPerms :=
  { isDir := true, readable := true, writable := true, executable := true }

def permBad : DirPerms :=
  { isDir := false, readable := false, writable := false, executable := false }

end Backup
namespace Backup

/- ### Helper lemmas about the counting functions -/

theorem countStatus_nil (s : ErrorCodes) : countStatus s [] = 0 := rfl

theorem countStatus_cons (s : ErrorCodes) (o : FileResult) (outs : List FileResult) :
    countStatus s (o :: outs) = (if o.status = s then 1 else 0) + countStatus s outs := by
  by_cases h : o.status = s <;> simp [countStatus, List.filter_cons, h, Nat.add_comm]

theorem sumSizes_cons (s : ErrorCodes) (o : FileResult) (outs : List FileResult) :
    sumSizes s (o :: outs) = (if o.status = s then outSize o else 0) + sumSizes s outs := by
  by_cases h : o.status = s <;> simp [sumSizes, List.filter_cons, h, Nat.add_comm]

theorem countInserted_cons (o : FileResult) (outs : List FileResult) :
    countInserted (o :: outs) = (if o.inserted = true then 1 else 0) + countInserted outs := by
  by_cases h : o.inserted = true <;> simp [countInserted, List.filter_cons, h, Nat.add_comm]

theorem countHashed_cons (o : FileResult) (outs : List FileResult) :
    countHashed (o :: outs) = (if o.canHash = true then 1 else 0) + countHashed outs := by
  by_cases h : o.canHash = true <;> simp [countHashed, List.filter_cons, h, Nat.add_comm]

theorem stepOutcomeCounters_eq (c : Counters) (o : FileResult) (c1 : Counters)
    (h : stepOutcomeCounters c o = some c1) :
    c1.files_allowed = c.files_allowed + (if o.status = .SUCCESS then 1 else 0) ∧
    c1.files_allowed_bytes
      = c.files_allowed_bytes + (if o.status = .SUCCESS then outSize o else 0) ∧
    c1.files_excluded = c.files_excluded + (if o.status = .EXCL_EXT then 1 else 0) ∧
    c1.files_excluded_bytes
      = c.files_excluded_bytes + (if o.status = .EXCL_EXT then outSize o else 0) ∧
    c1.files_errored = c.files_errored + (if o.status = .IO_ERROR then 1 else 0)
      + (if o.status = .TAR_ERROR then 1 else 0) ∧
    c1.files_hashed = c.files_hashed + (if o.canHash = true then 1 else 0) ∧
    c1.sql_file_inserts = c.sql_file_inserts := by
  obtain ⟨p, s, fst, ch, hc, ar, ins⟩ := o
  cases s <;> rcases fst with _ | st <;> cases ch <;>
    simp [stepOutcomeCounters] at h <;> subst h <;>
    simp [outSize]

theorem outSize_update (o : FileResult) (b : Bool) :
    outSize { o with inserted := b } = outSize o := rfl

theorem status_update (o : FileResult) (b : Bool) :
    ({ o with inserted := b } : FileResult).status = o.status := rfl

theorem canHash_update (o : FileResult) (b : Bool) :
    ({ o with inserted := b } : FileResult).canHash = o.canHash := rfl

theorem inserted_update (o : FileResult) (b : Bool) :
    ({ o with inserted := b } : FileResult).inserted = b := rfl

theorem runFiles_spec (cfg : Config) (hashFn : String → String)
    (fs : List FileInfo) :
    ∀ (table : List String) (c cFin : Counters) (outs : List FileResult),
      runFiles cfg hashFn fs table c = some (cFin, outs) →
      outs.length = fs.length ∧
      cFin.files_allowed = c.files_allowed + countStatus .SUCCESS outs ∧
      cFin.files_allowed_bytes = c.files_allowed_bytes + sumSizes .SUCCESS outs ∧
      cFin.files_excluded = c.files_excluded + countStatus .EXCL_EXT outs ∧
      cFin.files_excluded_bytes
        = c.files_excluded_bytes + sumSizes .EXCL_EXT outs ∧
      cFin.files_errored = c.files_errored + countStatus .IO_ERROR outs
        + countStatus .TAR_ERROR outs ∧
      cFin.files_hashed = c.files_hashed + countHashed outs ∧
      cFin.sql_file_inserts = c.sql_file_inserts + countInserted outs := by
  induction fs with
  | nil =>
    intro table c cFin outs h
    simp [runFiles] at h
    obtain ⟨rfl, rfl⟩ := h
    simp [countStatus, sumSizes, countHashed, countInserted]
  | cons f fs ih =>
    intro table c cFin outs h
    simp only [runFiles] at h
    rcases hpf : processFile cfg hashFn f with _ | o <;> rw [hpf] at h
    · simp at h
    simp only [Option.some_bind] at h
    rcases hst : stepOutcomeCounters c o with _ | c1 <;> rw [hst] at h
    · simp at h
    simp only [Option.some_bind] at h
    obtain ⟨e1, e2, e3, e4, e5, e6, e7⟩ := stepOutcomeCounters_eq c o c1 hst
    cases hdup : table.contains f.path <;> rw [hdup] at h <;> simp at h <;>
      obtain ⟨c2, outs2, hrec, rfl, rfl⟩ := h <;>
      obtain ⟨h1, h2, h3, h4, h5, h6, h7, h8⟩ := ih _ _ _ _ hrec <;>
      (try dsimp only at h1 h2 h3 h4 h5 h6 h7 h8) <;>
      simp [countStatus_cons, sumSizes_cons, countHashed_cons,
        countInserted_cons, outSize_update, status_update, canHash_update,
        inserted_update] <;>
      refine ⟨by omega, ?_, ?_, ?_, ?_, ?_, ?_, ?_⟩ <;> omega

theorem processFile_some_stat (cfg : Config) (hashFn : String → String)
    (f : FileInfo) (o : FileResult)
    (hpf : processFile cfg hashFn f = some o) :
    ∃ st, f.statResult = some st ∧ o.fileStat = some st := by
  rcases hstat : f.statResult with _ | st
  · simp [processFile, hstat] at hpf
  · refine ⟨st, rfl, ?_⟩
    simp [processFile, hstat] at hpf
    split at hpf
    · split at hpf
      · obtain rfl := Option.some.inj hpf
        rfl
      · simp at hpf
    · obtain rfl := Option.some.inj hpf
      rfl

/-- Claim C1: for every discovered file whose stat succeeds and whose loop
iteration inserts a catalog row, the hash of the row is non-null exactly when
the extension of the file is not in the exclusion set or its size is at most the
hashExcludedFilesMaxSize threshold; in particular an excluded file always
yields a row with outcome EXCL_EXT that is never archived, whose hash is
absent when the size exceeds the threshold and present when it does not. -/
theorem C1_hash_eligibility (cfg : Config) (hashFn : String → String)
    (f : FileInfo) (st : FileStat) (hstat : f.statResult = some st) :
    (splitextExt f.name ∈ cfg.excludedExts →
      (processFile cfg hashFn f).isSome = true) ∧
    ∀ o, processFile cfg hashFn f = some o →
      ((rowOf o).hash.isSome = true ↔
        (splitextExt f.name ∉ cfg.excludedExts ∨ st.st_size ≤ cfg.hefms)) ∧
      (splitextExt f.name ∈ cfg.excludedExts → cfg.hefms < st.st_size →
        o.status = .EXCL_EXT ∧ (rowOf o).hash = none ∧ o.archived = false) ∧
      (splitextExt f.name ∈ cfg.excludedExts → st.st_size ≤ cfg.hefms →
        o.status = .EXCL_EXT ∧ (rowOf o).hash.isSome = true ∧
          o.archived = false) := by
  constructor
  · intro hmem
    have hcls : classifyExt cfg.excludedExts f.name = .EXCL_EXT := by
      simp [classifyExt, hmem]
    simp [processFile, hstat, hcls]
  · intro o hpf
    by_cases hmem : splitextExt f.name ∈ cfg.excludedExts
    · have hcls : classifyExt cfg.excludedExts f.name = .EXCL_EXT := by
        simp [classifyExt, hmem]
      simp [processFile, hstat, hcls] at hpf
      obtain rfl := hpf.symm
      by_cases hsz : st.st_size ≤ cfg.hefms <;>
        simp [rowOf, hmem, hsz]
    · have hcls : classifyExt cfg.excludedExts f.name = .SUCCESS := by
        simp [classifyExt, hmem]
      simp [processFile, hstat, hcls] at hpf
      cases htar : f.tarOk <;> rw [htar] at hpf <;> simp at hpf
      obtain rfl := hpf.symm
      simp [rowOf, hmem]

/-- Claim C1 witness: the small excluded file fExclSmall stats successfully,
its row keeps a hash, its outcome is EXCL_EXT and it is not archived. -/
theorem C1_hash_eligibility_witness :
    (rowOf oExclSmall).hash.isSome = true ∧
    oExclSmall.status = ErrorCodes.EXCL_EXT ∧
    oExclSmall.archived = false := by
  have h := C1_hash_eligibility cfg0 hash0 fExclSmall statSmall (by decide)
  have h2 := h.2 oExclSmall (by decide)
  have h3 := h2.2.2 (by decide) (by decide)
  exact ⟨h3.2.1, h3.1, h3.2.2⟩

/-- Claim C2 counterexample: a run over two files with the same path: the
second insert raises IntegrityError (duplicate path), yet the second file
still joins files_allowed and files_allowed_bytes; only sql_file_inserts is
left without it, so the claim that the file is excluded from
files_allowed/files_excluded/files_errored and the byte totals is false. -/
theorem C2_counterexample :
    do_backup cfg0 hash0 [fGood, fGood]
      = some (cDup, [oGood, { oGood with inserted := false }]) ∧
    cDup.files_allowed = 2 ∧ cDup.files_allowed_bytes = 8 ∧
    cDup.sql_file_inserts = 1 ∧
    ¬ (cDup.files_allowed
        = countStatus .SUCCESS
            ([oGood, { oGood with inserted := false }].filter
              (fun o => o.inserted))) := by decide

/-- Claim C2 (amended): a duplicate-path IntegrityError is isolated: the
loop proceeds to the remaining files with the path table unchanged, the
file is left out of sql_file_inserts only, and its outcome still joins the
files_allowed / files_excluded / files_errored counters and the byte
totals, which are accumulated before the insert is attempted. -/
theorem C2_integrity_isolated (cfg : Config) (hashFn : String → String)
    (f : FileInfo) (fs : List FileInfo) (table : List String)
    (c c1 : Counters) (o : FileResult)
    (hpf : processFile cfg hashFn f = some o)
    (hstep : stepOutcomeCounters c o = some c1)
    (hdup : table.contains f.path = true) :
    runFiles cfg hashFn (f :: fs) table c
      = (runFiles cfg hashFn fs table c1).map
          (fun p => (p.1, { o with inserted := false } :: p.2)) ∧
    c1.sql_file_inserts = c.sql_file_inserts ∧
    c1.files_allowed = c.files_allowed
      + (if o.status = .SUCCESS then 1 else 0) ∧
    c1.files_allowed_bytes = c.files_allowed_bytes
      + (if o.status = .SUCCESS then outSize o else 0) ∧
    c1.files_excluded = c.files_excluded
      + (if o.status = .EXCL_EXT then 1 else 0) ∧
    c1.files_excluded_bytes = c.files_excluded_bytes
      + (if o.status = .EXCL_EXT then outSize o else 0) ∧
    c1.files_errored = c.files_errored
      + (if o.status = .IO_ERROR then 1 else 0)
      + (if o.status = .TAR_ERROR then 1 else 0) := by
  obtain ⟨e1, e2, e3, e4, e5, e6, e7⟩ := stepOutcomeCounters_eq c o c1 hstep
  refine ⟨?_, e7, e1, e2, e3, e4, e5⟩
  simp only [runFiles, hpf, Option.some_bind, hstep, hdup, Bool.not_true]
  simp

/-- Claim C2 witness: concrete duplicate-path insert failure on fGood with
the path already in the table. -/
theorem C2_integrity_isolated_witness :
    runFiles cfg0 hash0 [fGood] ["/in/a.txt"] initCounters
      = (runFiles cfg0 hash0 [] ["/in/a.txt"] cAfterGood).map
          (fun p => (p.1, { oGood with inserted := false } :: p.2)) ∧
    cAfterGood.sql_file_inserts = initCounters.sql_file_inserts ∧
    cAfterGood.files_allowed = initCounters.files_allowed
      + (if oGood.status = .SUCCESS then 1 else 0) ∧
    cAfterGood.files_allowed_bytes = initCounters.files_allowed_bytes
      + (if oGood.status = .SUCCESS then outSize oGood else 0) ∧
    cAfterGood.files_excluded = initCounters.files_excluded
      + (if oGood.status = .EXCL_EXT then 1 else 0) ∧
    cAfterGood.files_excluded_bytes = initCounters.files_excluded_bytes
      + (if oGood.status = .EXCL_EXT then outSize oGood else 0) ∧
    cAfterGood.files_errored = initCounters.files_errored
      + (if oGood.status = .IO_ERROR then 1 else 0)
      + (if oGood.status = .TAR_ERROR then 1 else 0) :=
  C2_integrity_isolated cfg0 hash0 fGood [] ["/in/a.txt"] initCounters
    cAfterGood oGood (by decide) (by decide) (by decide)

/-- Claim C3: at the end of a completed run the returned counters are exact
sums over per-file outcomes: files_allowed counts SUCCESS rows,
files_excluded counts EXCL_EXT rows, files_errored counts IO_ERROR plus
TAR_ERROR rows, and the two byte totals sum st_size over the matching
groups. -/
theorem C3_counters_exact (cfg : Config) (hashFn : String → String)
    (files : List FileInfo) (c : Counters) (outs : List FileResult)
    (h : do_backup cfg hashFn files = some (c, outs)) :
    c.files_allowed = countStatus .SUCCESS outs ∧
    c.files_excluded = countStatus .EXCL_EXT outs ∧
    c.files_errored = countStatus .IO_ERROR outs
      + countStatus .TAR_ERROR outs ∧
    c.files_allowed_bytes = sumSizes .SUCCESS outs ∧
    c.files_excluded_bytes = sumSizes .EXCL_EXT outs := by
  obtain ⟨h1, h2, h3, h4, h5, h6, h7, h8⟩ :=
    runFiles_spec cfg hashFn files [] initCounters c outs h
  simp only [initCounters] at h2 h3 h4 h5 h6
  exact ⟨by omega, by omega, by omega, by omega, by omega⟩

/-- Claim C3 witness: a concrete completed run over one accepted and one
excluded file has counters matching the outcome sums. -/
theorem C3_counters_exact_witness :
    do_backup cfg0 hash0 [fGood, fExclSmall] = some (cMix, outsMix) ∧
    (cMix.files_allowed = countStatus .SUCCESS outsMix ∧
     cMix.files_excluded = countStatus .EXCL_EXT outsMix ∧
     cMix.files_errored = countStatus .IO_ERROR outsMix
       + countStatus .TAR_ERROR outsMix ∧
     cMix.files_allowed_bytes = sumSizes .SUCCESS outsMix ∧
     cMix.files_excluded_bytes = sumSizes .EXCL_EXT outsMix) :=
  ⟨by decide,
   C3_counters_exact cfg0 hash0 [fGood, fExclSmall] cMix outsMix (by decide)⟩

/-- Claim C4 (code defect): the claim and the spec require a file whose stat
fails to be cataloged as IO_ERROR with absent size/atime/mtime/hash while
the run continues; in the Python-3 source the IOError handler formats
e.message, an attribute Python 3 exceptions do not have, so the handler
itself raises AttributeError and the whole run aborts: the file gets no
catalog row and the remaining files are never processed.  The theorem
evaluates the model at such an input: the iteration yields no row for any
configuration, and a run holding a stat-failing file followed by a healthy
file aborts instead of returning counters. -/
theorem C4_stat_failure_aborts :
    (∀ (cfg : Config) (hashFn : String → String),
        processFile cfg hashFn fStatFail = none) ∧
    do_backup cfg0 hash0 [fStatFail, fGood] = none := by
  constructor
  · intro cfg hashFn
    rfl
  · decide

/-- Claim C5: a missing or under-permissioned input directory (read plus
traverse) or output directory (read plus write plus traverse) makes the
process exit with status 1 before the archive or the catalog is created. -/
theorem C5_validation_aborts (inPerms : List DirPerms) (outPerm : DirPerms)
    (t : String) (cfg : Config) (hashFn : String → String) (bname : String)
    (files : List FileInfo)
    (h : (∃ d ∈ inPerms, validRX d = false) ∨ validRWX outPerm = false) :
    (main_model inPerms outPerm t cfg hashFn bname files).exitCode = 1 ∧
    (main_model inPerms outPerm t cfg hashFn bname files).tarCreated = false ∧
    (main_model inPerms outPerm t cfg hashFn bname files).dbCreated = false ∧
    (main_model inPerms outPerm t cfg hashFn bname files).events = [] := by
  have hcond : (inPerms.all validRX && validRWX outPerm) = false := by
    rcases h with ⟨d, hd, hdf⟩ | hout
    · have hall : inPerms.all validRX = false := by
        rw [List.all_eq_false]
        exact ⟨d, hd, by simp [hdf]⟩
      simp [hall]
    · simp [hout]
  simp [main_model, hcond]

/-- Claim C5 witness: an output directory with no permissions at all aborts
the run before anything is created. -/
theorem C5_validation_aborts_witness :
    (main_model [permRX] permBad "t1" cfg0 hash0 "bk" [fGood]).exitCode = 1 ∧
    (main_model [permRX] permBad "t1" cfg0 hash0 "bk" [fGood]).tarCreated
      = false ∧
    (main_model [permRX] permBad "t1" cfg0 hash0 "bk" [fGood]).dbCreated
      = false ∧
    (main_model [permRX] permBad "t1" cfg0 hash0 "bk" [fGood]).events = [] :=
  C5_validation_aborts [permRX] permBad "t1" cfg0 hash0 "bk" [fGood]
    (Or.inr (by decide))

/-- Claim C6 counterexample: on a concrete valid configuration the
outcome-code lookup table (insert_error_codes) is inserted before the
traversal, so the run-level record as a whole is not inserted only after
traversal of all input directories has completed. -/
theorem C6_counterexample :
    ¬ insertedOnceOnlyAfterTraversal
        (main_model [permRX] permRWX "t1" cfg0 hash0 "bk" []).events
        Event.insertErrorCodes := by decide

/-- Claim C6 (amended): on a run that passes validation and completes
traversal, the meta row together with the input-directory and
excluded-extension snapshots (insert_meta) is inserted exactly once, after
traversal completes; the outcome-code lookup table (insert_error_codes) is
also inserted exactly once, but before traversal begins, not after it. -/
theorem C6_run_record_placement (inPerms : List DirPerms) (outPerm : DirPerms)
    (t : String) (cfg : Config) (hashFn : String → String) (bname : String)
    (files : List FileInfo) (r : Counters × List FileResult)
    (hvalid : (inPerms.all validRX && validRWX outPerm) = true)
    (hrun : do_backup cfg hashFn files = some r) :
    insertedOnceOnlyAfterTraversal
      (main_model inPerms outPerm t cfg hashFn bname files).events
      Event.insertMeta ∧
    (main_model inPerms outPerm t cfg hashFn bname files).events.count
      Event.insertErrorCodes = 1 ∧
    ∀ i < (main_model inPerms outPerm t cfg hashFn bname files).events.length,
      (main_model inPerms outPerm t cfg hashFn bname files).events.get? i
          = some Event.insertErrorCodes →
      ∀ j < i,
        (main_model inPerms outPerm t cfg hashFn bname files).events.get? j
          ≠ some Event.doBackupDone := by
  have hev : (main_model inPerms outPerm t cfg hashFn bname files).events
      = [.createTar, .createDb, .insertErrorCodes, .doBackupDone,
         .closeTar, .insertMeta, .closeDb] := by
    simp [main_model, hvalid, hrun]
  rw [hev]
  decide

/-- Claim C6 witness: concrete valid run over an empty file list. -/
theorem C6_run_record_placement_witness :
    insertedOnceOnlyAfterTraversal
      (main_model [permRX] permRWX "t1" cfg0 hash0 "bk" []).events
      Event.insertMeta ∧
    (main_model [permRX] permRWX "t1" cfg0 hash0 "bk" []).events.count
      Event.insertErrorCodes = 1 ∧
    ∀ i < (main_model [permRX] permRWX "t1" cfg0 hash0 "bk" []).events.length,
      (main_model [permRX] permRWX "t1" cfg0 hash0 "bk" []).events.get? i
          = some Event.insertErrorCodes →
      ∀ j < i,
        (main_model [permRX] permRWX "t1" cfg0 hash0 "bk" []).events.get? j
          ≠ some Event.doBackupDone :=
  C6_run_record_placement [permRX] permRWX "t1" cfg0 hash0 "bk" []
    (initCounters, []) (by decide) (by decide)

/-- Claim C7: two runs of the pipeline with identical configuration, hash
function and filesystem but different start-time strings produce identical
counters, an identical path-to-outcome map and identical exit codes; the
start time reaches only the timestamped archive and catalog names. -/
theorem C7_config_determinism (inPerms : List DirPerms) (outPerm : DirPerms)
    (t1 t2 : String) (cfg : Config) (hashFn : String → String)
    (bname : String) (files : List FileInfo) :
    (main_model inPerms outPerm t1 cfg hashFn bname files).result.map
        Prod.fst
      = (main_model inPerms outPerm t2 cfg hashFn bname files).result.map
          Prod.fst ∧
    (main_model inPerms outPerm t1 cfg hashFn bname files).result.map
        (fun p => outcomeMap p.2)
      = (main_model inPerms outPerm t2 cfg hashFn bname files).result.map
          (fun p => outcomeMap p.2) ∧
    (main_model inPerms outPerm t1 cfg hashFn bname files).exitCode
      = (main_model inPerms outPerm t2 cfg hashFn bname files).exitCode := by
  cases hcond : (inPerms.all validRX && validRWX outPerm) <;>
    cases hrun : do_backup cfg hashFn files <;>
      simp [main_model, hcond, hrun]

/-- Claim C8 (code defect): the claim, read off the data flow of
do_backup, expects a file whose tar append fails to be cataloged as
TAR_ERROR with non-null size, atime, mtime and hash, and to be counted in
files_hashed (its stat and digest precede the append); in the Python-3
source the TarError handler formats e.message, which raises
AttributeError, so the iteration aborts the whole run instead: the file
gets no catalog row at all.  The theorem evaluates the model at such an
input: an accepted, stat-able file whose tar append fails produces no row
for any hash function, and a run holding only that file aborts. -/
theorem C8_tar_failure_aborts :
    (∀ hashFn : String → String,
        processFile cfg0 hashFn fTarFail = none) ∧
    do_backup cfg0 hash0 [fTarFail] = none := by
  constructor
  · intro hashFn
    rfl
  · decide

/-- Claim C9: a per-file result with outcome EXCL_EXT always carries a
successful stat (a stat failure never reaches the counter block), so the
excluded-counter branch that reads file_stat.st_size cannot hit a None
file_stat: accumulating the counters for such a result never fails. -/
theorem C9_excluded_stat_present (cfg : Config) (hashFn : String → String)
    (f : FileInfo) (o : FileResult)
    (hpf : processFile cfg hashFn f = some o)
    (hexcl : o.status = ErrorCodes.EXCL_EXT) :
    o.fileStat.isSome = true ∧
    ∀ c, (stepOutcomeCounters c o).isSome = true := by
  obtain ⟨st, hstat, hfs⟩ := processFile_some_stat cfg hashFn f o hpf
  refine ⟨by simp [hfs], ?_⟩
  intro c
  simp [stepOutcomeCounters, hexcl, hfs]

/-- Claim C9 witness: the concrete excluded file fExclSmall has a present
stat in its result and its counter accumulation succeeds from the initial
counters. -/
theorem C9_excluded_stat_present_witness :
    oExclSmall.fileStat.isSome = true ∧
    ∀ c, (stepOutcomeCounters c oExclSmall).isSome = true :=
  C9_excluded_stat_present cfg0 hash0 fExclSmall oExclSmall
    (by decide) (by decide)

theorem lastDotSplit_eq_none (l : List Char) (h : '.' ∉ l) :
    lastDotSplit l = none := by
  induction l with
  | nil => rfl
  | cons c cs ih =>
    have h1 : ¬ (c = '.') := fun e => h (by simp [e])
    have h2 : '.' ∉ cs := fun hm => h (List.mem_cons_of_mem c hm)
    simp [lastDotSplit, ih h2, h1]

/-- Claim C10: a filename with no dot, or whose only dot is its leading
character, yields the empty extension, so the classifier marks it
EXCL_EXT exactly when the empty string is itself one of the configured
excluded extensions. -/
theorem C10_empty_ext_classification (excl : List (List Char))
    (name : List Char)
    (h : ('.' ∉ name) ∨ ∃ t, name = '.' :: t ∧ '.' ∉ t) :
    splitextExt name = [] ∧
    (classifyExt excl name = ErrorCodes.EXCL_EXT ↔ ([] : List Char) ∈ excl) := by
  have hext : splitextExt name = [] := by
    rcases h with hnd | ⟨t, rfl, hnt⟩
    · simp [splitextExt, lastDotSplit_eq_none name hnd]
    · simp [splitextExt, lastDotSplit, lastDotSplit_eq_none t hnt]
  refine ⟨hext, ?_⟩
  rw [classifyExt, hext]
  by_cases hm : ([] : List Char) ∈ excl <;> simp [hm]

/-- Claim C10 witness: the leading-dot name .bashrc yields the empty
extension and is excluded exactly when the empty extension is configured. -/
theorem C10_empty_ext_classification_witness :
    splitextExt ['.', 'b', 'a', 's', 'h', 'r', 'c'] = [] ∧
    (classifyExt [([] : List Char)] ['.', 'b', 'a', 's', 'h', 'r', 'c']
        = ErrorCodes.EXCL_EXT ↔
      ([] : List Char) ∈ [([] : List Char)]) :=
  C10_empty_ext_classification [[]] ['.', 'b', 'a', 's', 'h', 'r', 'c']
    (Or.inr ⟨['b', 'a', 's', 'h', 'r', 'c'], rfl, by decide⟩)

end Backup
